import Mathlib

/-!
Verification development for the database migration service
(`src/services/database_migration.py` of the VertaAI repository).

The Python module is embedded shallowly:

* Python strings are Lean `String`s; the Python string operations used by the
  module (`replace`, `split`, `strip`, `endswith`, lexicographic comparison,
  `sorted`) are defined below on `List Char`, following CPython semantics.
* `hashlib.sha256(content.encode('utf-8')).hexdigest()` is embedded as a full
  executable SHA-256 over byte lists (`Nat` values below 256), with the hex
  rendering of the 256-bit digest.
* The service's mutation of `Migration` objects is embedded by explicit state
  passing: `apply_migration`/`rollback_migration` return the updated record
  together with their boolean result.  `print` calls have no observable effect
  in the embedding.  `datetime.now()` is passed in as an abstract `now : Nat`.
* The migrations directory is embedded as a listing: a list of
  `(filename, content)` pairs.  Python's `sorted` is a stable sort; with the
  comparison total, a stable sort is extensionally unique, so it is embedded
  with `List.insertionSort` (stable, and executable in the kernel).
-/

namespace VertaAI

/-! ## Python string primitives -/

/-- Lexicographic `<=` on code-point lists: CPython's `str.__le__`. -/
def charListLe : List Char → List Char → Bool
  | [], _ => true
  | _ :: _, [] => false
  | x :: a, y :: b => if x = y then charListLe a b else decide (x.toNat < y.toNat)

/-- Lexicographic `<` on code-point lists: CPython's `str.__lt__`. -/
def charListLt : List Char → List Char → Bool
  | _, [] => false
  | [], _ :: _ => true
  | x :: a, y :: b => if x = y then charListLt a b else decide (x.toNat < y.toNat)

/-- Python `s <= t` on strings. -/
def pyStrLe (s t : String) : Bool := charListLe s.data t.data

/-- Python `s < t` on strings (so Python `a > b` is `pyStrLt b a`). -/
def pyStrLt (s t : String) : Bool := charListLt s.data t.data

/-- The whitespace characters stripped by Python's `str.strip()` (ASCII part). -/
def isPySpace (c : Char) : Bool :=
  c = ' ' || c = '\t' || c = '\n' || c = '\r' || c = '\x0b' || c = '\x0c'

/-- Python `s.strip()`. -/
def pyStrip (s : String) : String :=
  ⟨((s.data.dropWhile isPySpace).reverse.dropWhile isPySpace).reverse⟩

/-- Fuel-driven worker for `pyReplace`; the fuel bounds the number of steps,
each of which consumes at least one character of the text. -/
def replaceFuel (pat rep : List Char) : Nat → List Char → List Char
  | 0, s => s
  | _ + 1, [] => []
  | fuel + 1, c :: rest =>
    if pat ≠ [] ∧ pat.isPrefixOf (c :: rest) then
      rep ++ replaceFuel pat rep fuel (rest.drop (pat.length - 1))
    else
      c :: replaceFuel pat rep fuel rest

/-- Python `s.replace(pat, rep)`: replaces every non-overlapping occurrence,
left to right (for a non-empty `pat`). -/
def pyReplace (s pat rep : String) : String :=
  ⟨replaceFuel pat.data rep.data s.data.length s.data⟩

/-- Fuel-driven worker for `pySplit`; `acc` holds the current piece reversed. -/
def splitFuel (sep : List Char) : Nat → List Char → List Char → List (List Char)
  | 0, acc, s => [acc.reverse ++ s]
  | _ + 1, acc, [] => [acc.reverse]
  | fuel + 1, acc, c :: rest =>
    if sep ≠ [] ∧ sep.isPrefixOf (c :: rest) then
      acc.reverse :: splitFuel sep fuel [] (rest.drop (sep.length - 1))
    else
      splitFuel sep fuel (c :: acc) rest

/-- Python `s.split(sep)` for a non-empty separator. -/
def pySplit (s sep : String) : List String :=
  (splitFuel sep.data (s.data.length + 1) [] s.data).map fun l => ⟨l⟩

/-- Python `s.endswith(suffix)`. -/
def pyEndsWith (s suffix : String) : Bool := suffix.data.isSuffixOf s.data

/-! ## SHA-256 (`hashlib.sha256(content.encode('utf-8')).hexdigest()`)

Implemented over byte lists (`Nat`s below 256) following FIPS 180-4, with all
32-bit words kept as `Nat`s reduced mod `2 ^ 32`. -/

/-- UTF-8 encoding of one unicode scalar value, as byte values. -/
def utf8Bytes (c : Char) : List Nat :=
  let n := c.toNat
  if n < 128 then [n]
  else if n < 2048 then [192 + n / 64, 128 + n % 64]
  else if n < 65536 then [224 + n / 4096, 128 + n / 64 % 64, 128 + n % 64]
  else [240 + n / 262144, 128 + n / 4096 % 64, 128 + n / 64 % 64, 128 + n % 64]

/-- Python `s.encode('utf-8')` as a byte list. -/
def utf8Encode (s : String) : List Nat := (s.data.map utf8Bytes).flatten

/-- Right rotation of a 32-bit word. -/
def rotr (n x : Nat) : Nat := ((x >>> n) ||| (x <<< (32 - n))) &&& 4294967295

/-- SHA-256 `Ch` function; complement taken inside 32 bits. -/
def shaCh (x y z : Nat) : Nat := (x &&& y) ^^^ ((x ^^^ 4294967295) &&& z)

/-- SHA-256 `Maj` function. -/
def shaMaj (x y z : Nat) : Nat := (x &&& y) ^^^ (x &&& z) ^^^ (y &&& z)

/-- SHA-256 big sigma 0. -/
def bigSigma0 (x : Nat) : Nat := rotr 2 x ^^^ rotr 13 x ^^^ rotr 22 x

/-- SHA-256 big sigma 1. -/
def bigSigma1 (x : Nat) : Nat := rotr 6 x ^^^ rotr 11 x ^^^ rotr 25 x

/-- SHA-256 small sigma 0. -/
def smallSigma0 (x : Nat) : Nat := rotr 7 x ^^^ rotr 18 x ^^^ (x >>> 3)

/-- SHA-256 small sigma 1. -/
def smallSigma1 (x : Nat) : Nat := rotr 17 x ^^^ rotr 19 x ^^^ (x >>> 10)

/-- The 64 SHA-256 round constants, in decimal. -/
def shaK : List Nat :=
  [1116352408, 1899447441, 3049323471, 3921009573, 961987163, 1508970993, 2453635748,
   2870763221, 3624381080, 310598401, 607225278, 1426881987, 1925078388, 2162078206,
   2614888103, 3248222580, 3835390401, 4022224774, 264347078, 604807628, 770255983,
   1249150122, 1555081692, 1996064986, 2554220882, 2821834349, 2952996808, 3210313671,
   3336571891, 3584528711, 113926993, 338241895, 666307205, 773529912, 1294757372,
   1396182291, 1695183700, 1986661051, 2177026350, 2456956037, 2730485921, 2820302411,
   3259730800, 3345764771, 3516065817, 3600352804, 4094571909, 275423344, 430227734,
   506948616, 659060556, 883997877, 958139571, 1322822218, 1537002063, 1747873779,
   1955562222, 2024104815, 2227730452, 2361852424, 2428436474, 2756734187, 3204031479,
   3329325298]

/-- The eight 32-bit working variables of the SHA-256 compression. -/
structure ShaState where
  a : Nat
  b : Nat
  c : Nat
  d : Nat
  e : Nat
  f : Nat
  g : Nat
  h : Nat
deriving DecidableEq, Repr

/-- The SHA-256 initial hash value, in decimal. -/
def shaInit : ShaState :=
  ⟨1779033703, 3144134277, 1013904242, 2773480762,
   1359893119, 2600822924, 528734635, 1541459225⟩

/-- The 64-bit big-endian byte encoding of the message bit length. -/
def lenBytes8 (n : Nat) : List Nat :=
  [n / 72057594037927936 % 256, n / 281474976710656 % 256, n / 1099511627776 % 256,
   n / 4294967296 % 256, n / 16777216 % 256, n / 65536 % 256, n / 256 % 256, n % 256]

/-- SHA-256 message padding: append `0x80`, zero bytes to 56 mod 64, then the
bit length as 8 big-endian bytes. -/
def shaPad (msg : List Nat) : List Nat :=
  msg ++ 128 :: List.replicate ((120 - (msg.length + 1) % 64) % 64) 0 ++ lenBytes8 (msg.length * 8)

/-- Splits a byte list into 64-byte blocks (fuel-driven). -/
def toBlocks : Nat → List Nat → List (List Nat)
  | 0, _ => []
  | _ + 1, [] => []
  | fuel + 1, s => s.take 64 :: toBlocks fuel (s.drop 64)

/-- Packs bytes into 32-bit big-endian words (fuel-driven). -/
def toWords : Nat → List Nat → List Nat
  | 0, _ => []
  | _ + 1, [] => []
  | fuel + 1, s =>
    (s.getD 0 0 * 16777216 + s.getD 1 0 * 65536 + s.getD 2 0 * 256 + s.getD 3 0)
      :: toWords fuel (s.drop 4)

/-- Extends the 16-word message schedule by `n` further words. -/
def extendSchedule : Nat → List Nat → List Nat
  | 0, w => w
  | n + 1, w =>
    let i := w.length
    extendSchedule n
      (w ++ [(smallSigma1 (w.getD (i - 2) 0) + w.getD (i - 7) 0
              + smallSigma0 (w.getD (i - 15) 0) + w.getD (i - 16) 0) % 4294967296])

/-- One round of the SHA-256 compression function. -/
def shaRound (st : ShaState) (kw : Nat × Nat) : ShaState :=
  let t1 := (st.h + bigSigma1 st.e + shaCh st.e st.f st.g + kw.1 + kw.2) % 4294967296
  let t2 := (bigSigma0 st.a + shaMaj st.a st.b st.c) % 4294967296
  ⟨(t1 + t2) % 4294967296, st.a, st.b, st.c, (st.d + t1) % 4294967296, st.e, st.f, st.g⟩

/-- Processes one 64-byte block. -/
def shaCompress (st : ShaState) (block : List Nat) : ShaState :=
  let w := extendSchedule 48 (toWords 16 block)
  let r := (shaK.zip w).foldl shaRound st
  ⟨(st.a + r.a) % 4294967296, (st.b + r.b) % 4294967296, (st.c + r.c) % 4294967296,
   (st.d + r.d) % 4294967296, (st.e + r.e) % 4294967296, (st.f + r.f) % 4294967296,
   (st.g + r.g) % 4294967296, (st.h + r.h) % 4294967296⟩

/-- The SHA-256 digest of a byte list, as the final eight 32-bit words. -/
def sha256Digest (msg : List Nat) : ShaState :=
  (toBlocks (msg.length + 72) (shaPad msg)).foldl shaCompress shaInit

/-- The sixteen lowercase hex digits. -/
def hexChars : List Char := "0123456789abcdef".data

/-- The lowercase hex digit for a nibble. -/
def hexChar (n : Nat) : Char := hexChars.getD n '0'

/-- The eight hex characters of one 32-bit word, most significant nibble first. -/
def word8Hex (x : Nat) : List Char :=
  [hexChar (x / 268435456 % 16), hexChar (x / 16777216 % 16), hexChar (x / 1048576 % 16),
   hexChar (x / 65536 % 16), hexChar (x / 4096 % 16), hexChar (x / 256 % 16),
   hexChar (x / 16 % 16), hexChar (x % 16)]

/-- The 64-character lowercase hex rendering of a SHA-256 digest. -/
def shaHex (st : ShaState) : String :=
  ⟨word8Hex st.a ++ word8Hex st.b ++ word8Hex st.c ++ word8Hex st.d ++
   word8Hex st.e ++ word8Hex st.f ++ word8Hex st.g ++ word8Hex st.h⟩

/-! ## Data model (`MigrationStatus`, `Migration`) -/

/-- Migration execution status (`MigrationStatus` enum, lines 15-21). -/
inductive MigrationStatus where
  | pending
  | running
  | completed
  | failed
  | rolled_back
deriving DecidableEq, Repr

/-- A database migration (`Migration` dataclass, lines 24-34).  `applied_at`
holds an abstract timestamp. -/
structure Migration where
  version : String
  name : String
  description : String
  up_sql : String
  down_sql : String
  checksum : String
  applied_at : Option Nat := none
  status : MigrationStatus := .pending
deriving DecidableEq, Repr

/-! ## Checksum and registry (`calculate_checksum`, `load_migrations`,
`get_applied_migrations`, `get_migration_status`) -/

/-- `calculate_checksum` (lines 61-71):
`hashlib.sha256(content.encode('utf-8')).hexdigest()`. -/
def calculate_checksum (content : String) : String :=
  shaHex (sha256Digest (utf8Encode content))

/-- Ascending comparison of migrations by `version`, the key function
`lambda m: m.version` of `load_migrations` (line 117). -/
def verLe (a b : Migration) : Prop := pyStrLe a.version b.version = true

instance : DecidableRel verLe :=
  fun a b => inferInstanceAs (Decidable (pyStrLe a.version b.version = true))

/-- Descending comparison of migrations by `version`: `sorted(...,
key=lambda m: m.version, reverse=True)` of `migrate_down` (lines 230-234).
Python's `reverse=True` keeps equal keys in their original order, as a stable
sort with the reversed comparison does. -/
def verGe (a b : Migration) : Prop := pyStrLe b.version a.version = true

instance : DecidableRel verGe :=
  fun a b => inferInstanceAs (Decidable (pyStrLe b.version a.version = true))

/-- Ascending comparison of directory entries by filename:
`sorted(os.listdir(...))` (line 86). -/
def nameLe (a b : String × String) : Prop := pyStrLe a.1 b.1 = true

instance : DecidableRel nameLe :=
  fun a b => inferInstanceAs (Decidable (pyStrLe a.1 b.1 = true))

/-- The body of the `load_migrations` loop (lines 86-115) for one directory
entry: `none` embeds `continue`.  The `.sql` filter, the two-part
`<version>__<name>` filename convention, and the `-- UP` / `-- DOWN`
sectioning follow the source line by line. -/
def parse_migration (filename content : String) : Option Migration :=
  if !pyEndsWith filename ".sql" then none
  else
    match pySplit (pyReplace filename ".sql" "") "__" with
    | [version, nm] =>
      let sections := pySplit content "-- DOWN"
      let up_sql := pyStrip (pyReplace sections.headI "-- UP" "")
      let down_sql :=
        match sections with
        | _ :: s1 :: _ => pyStrip s1
        | _ => ""
      some
        { version := version
          name := nm
          description := "Migration " ++ version ++ ": " ++ nm
          up_sql := up_sql
          down_sql := down_sql
          checksum := calculate_checksum up_sql }
    | _ => none

/-- `load_migrations` (lines 73-117) over a directory listing of
`(filename, content)` pairs.  The directory-missing bootstrap branch
(lines 82-84) corresponds to the empty listing. -/
def load_migrations (listing : List (String × String)) : List Migration :=
  List.insertionSort verLe
    ((List.insertionSort nameLe listing).filterMap fun fc => parse_migration fc.1 fc.2)

/-- `get_applied_migrations` (lines 119-128): the placeholder implementation
returns the empty dict, embedded as the empty association list. -/
def get_applied_migrations : List (String × Migration) := []

/-! ## Executor (`apply_migration`, `rollback_migration`) -/

/-- `apply_migration` (lines 130-156): returns the updated migration and the
boolean result.  The try-body only assigns fields and prints, so the except
branch cannot run and the non-dry branch always succeeds. -/
def apply_migration (now : Nat) (m : Migration) (dry_run : Bool) : Migration × Bool :=
  if dry_run then (m, true)
  else ({ m with status := .completed, applied_at := some now }, true)

/-- `rollback_migration` (lines 158-182): returns the updated migration and
the boolean result.  There is no check of `down_sql`; the try-body only
assigns the status and prints, so the non-dry branch always succeeds. -/
def rollback_migration (m : Migration) (dry_run : Bool) : Migration × Bool :=
  if dry_run then (m, true)
  else ({ m with status := .rolled_back }, true)

/-- Modelled from the spec: the try-body of `apply_migration` carries
`TODO: Execute migration SQL`, so the database executor call is missing from
the source.  Per spec section 4.3 the executor is invoked with the up body and
on failure the status becomes `Failed` and the result is failure; the executor
outcome is abstracted as `exec`.  With `exec` constantly `true` this is
exactly `apply_migration`. -/
def apply_migration_exec (exec : Migration → Bool) (now : Nat) (m : Migration)
    (dry_run : Bool) : Migration × Bool :=
  if dry_run then (m, true)
  else if exec m then ({ m with status := .completed, applied_at := some now }, true)
  else ({ m with status := .failed }, false)

/-! ## Planner (`migrate_up`, `migrate_down`, `get_migration_status`) -/

/-- Python truthiness guard of line 207:
`if target_version and migration.version > target_version`.  An empty-string
target is falsy, so it disables the stop check exactly like `None`. -/
def stop_before (target : Option String) (v : String) : Bool :=
  match target with
  | none => false
  | some t => !(t == "") && pyStrLt t v

/-- The `migrate_up` loop (lines 201-214): skip versions in `applied`, break
on the target check, count successes, and stop on the first failure.  The
third component instruments the loop with the list of migrations passed to
the apply step, in order. -/
def migrate_up_loop (apply1 : Migration → Migration × Bool) (applied : List String)
    (target : Option String) : List Migration → Nat × Nat × List Migration
  | [] => (0, 0, [])
  | m :: rest =>
    if applied.contains m.version then migrate_up_loop apply1 applied target rest
    else if stop_before target m.version then (0, 0, [])
    else if (apply1 m).2 then
      ((migrate_up_loop apply1 applied target rest).1 + 1,
       (migrate_up_loop apply1 applied target rest).2.1,
       m :: (migrate_up_loop apply1 applied target rest).2.2)
    else (0, 1, [m])

/-- `migrate_up` (lines 184-216): `(successful, failed)` plus the attempted
trace.  `applied` comes from the placeholder `get_applied_migrations`. -/
def migrate_up (now : Nat) (listing : List (String × String)) (target : Option String)
    (dry_run : Bool) : Nat × Nat × List Migration :=
  migrate_up_loop (fun m => apply_migration now m dry_run)
    (get_applied_migrations.map Prod.fst) target (load_migrations listing)

/-- Modelled from the spec: `migrate_up` with the applied ledger and the
database executor outcome as parameters, since `get_applied_migrations` is a
placeholder returning `{}` and the executor call is a TODO.  Per spec
section 4.4 the planner reads the applied mapping from the registry and
drives the executor. -/
def migrate_up_exec (exec : Migration → Bool) (now : Nat)
    (applied : List (String × Migration)) (listing : List (String × String))
    (target : Option String) (dry_run : Bool) : Nat × Nat × List Migration :=
  migrate_up_loop (fun m => apply_migration_exec exec now m dry_run)
    (applied.map Prod.fst) target (load_migrations listing)

/-- The `migrate_down` loop (lines 239-244): count successes and stop on the
first failure; the third component records the migrations passed to the
rollback step, in order. -/
def migrate_down_loop (rb1 : Migration → Migration × Bool) :
    List Migration → Nat × Nat × List Migration
  | [] => (0, 0, [])
  | m :: rest =>
    if (rb1 m).2 then
      ((migrate_down_loop rb1 rest).1 + 1, (migrate_down_loop rb1 rest).2.1,
       m :: (migrate_down_loop rb1 rest).2.2)
    else (0, 1, [m])

/-- The rollback plan of `migrate_down` (lines 229-234): the applied
migrations sorted by version descending, truncated to `steps`. -/
def rollback_plan (applied : List (String × Migration)) (steps : Nat) : List Migration :=
  (List.insertionSort verGe (applied.map Prod.snd)).take steps

/-- `migrate_down` (lines 218-246): `(successful, failed)` plus the attempted
trace, over the placeholder `get_applied_migrations`. -/
def migrate_down (steps : Nat) (dry_run : Bool) : Nat × Nat × List Migration :=
  migrate_down_loop (fun m => rollback_migration m dry_run)
    (rollback_plan get_applied_migrations steps)

/-- Modelled from the spec: `migrate_down` with the applied ledger as a
parameter, since `get_applied_migrations` is a placeholder returning `{}`.
Per spec section 4.4 the planner reads the applied mapping from the durable
ledger. -/
def migrate_down_ledger (applied : List (String × Migration)) (steps : Nat)
    (dry_run : Bool) : Nat × Nat × List Migration :=
  migrate_down_loop (fun m => rollback_migration m dry_run) (rollback_plan applied steps)

/-- The dictionary returned by `get_migration_status` (lines 260-267). -/
structure StatusReport where
  total_migrations : Nat
  applied_count : Nat
  pending_count : Nat
  current_version : Option String
  latest_version : Option String
  pending_migrations : List String
deriving DecidableEq, Repr

/-- Python `max` over a list of strings: keeps the current value on ties, as
`max` only replaces it on a strict `>`. -/
def pyMaxStr : List String → Option String
  | [] => none
  | x :: xs => some (xs.foldl (fun acc s => if pyStrLt acc s then s else acc) x)

/-- `get_migration_status` (lines 248-267). -/
def get_migration_status (listing : List (String × String)) : StatusReport :=
  let all_migrations := load_migrations listing
  let applied := get_applied_migrations
  let pending := all_migrations.filter fun m => !((applied.map Prod.fst).contains m.version)
  { total_migrations := all_migrations.length
    applied_count := applied.length
    pending_count := pending.length
    current_version := pyMaxStr (applied.map Prod.fst)
    latest_version := all_migrations.getLast?.map Migration.version
    pending_migrations := pending.map Migration.version }

/-! ## Concrete fixtures used by witnesses and counterexamples -/

/-- A three-entry directory listing, listed in the order `V003, V001, V002`
(the scenario of spec section 8). -/
def exListing : List (String × String) :=
  [("V003__create_comments.sql", "-- UP\nCREATE TABLE c(id INT);\n-- DOWN\nDROP TABLE c;"),
   ("V001__create_users.sql", "-- UP\nCREATE TABLE u(id INT);\n-- DOWN\nDROP TABLE u;"),
   ("V002__create_posts.sql", "-- UP\nCREATE TABLE p(id INT);\n-- DOWN\nDROP TABLE p;")]

/-- The same three directory entries listed in ascending order. -/
def exListingSorted : List (String × String) :=
  [("V001__create_users.sql", "-- UP\nCREATE TABLE u(id INT);\n-- DOWN\nDROP TABLE u;"),
   ("V002__create_posts.sql", "-- UP\nCREATE TABLE p(id INT);\n-- DOWN\nDROP TABLE p;"),
   ("V003__create_comments.sql", "-- UP\nCREATE TABLE c(id INT);\n-- DOWN\nDROP TABLE c;")]

/-- A single-entry directory listing. -/
def exListing1 : List (String × String) :=
  [("V001__create_users.sql", "-- UP\nCREATE TABLE u(id INT);\n-- DOWN\nDROP TABLE u;")]

/-- Two single-entry listings whose files share the up body but differ in the
down body. -/
def exListingA : List (String × String) :=
  [("V010__alpha.sql", "-- UP\nALTER TABLE x;\n-- DOWN\nDROP INDEX a;")]

/-- Companion of `exListingA` with a different down body only. -/
def exListingB : List (String × String) :=
  [("V010__alpha.sql", "-- UP\nALTER TABLE x;\n-- DOWN\nDROP INDEX b;")]

/-- The migration parsed from `exListing1`. -/
def mV1 : Migration :=
  { version := "V001", name := "create_users", description := "Migration V001: create_users",
    up_sql := "CREATE TABLE u(id INT);", down_sql := "DROP TABLE u;",
    checksum := calculate_checksum "CREATE TABLE u(id INT);" }

/-- The `V002` migration of `exListing`. -/
def mV2 : Migration :=
  { version := "V002", name := "create_posts", description := "Migration V002: create_posts",
    up_sql := "CREATE TABLE p(id INT);", down_sql := "DROP TABLE p;",
    checksum := calculate_checksum "CREATE TABLE p(id INT);" }

/-- The `V003` migration of `exListing`. -/
def mV3 : Migration :=
  { version := "V003", name := "create_comments", description := "Migration V003: create_comments",
    up_sql := "CREATE TABLE c(id INT);", down_sql := "DROP TABLE c;",
    checksum := calculate_checksum "CREATE TABLE c(id INT);" }

/-- The migration parsed from `exListingA`. -/
def mA : Migration :=
  { version := "V010", name := "alpha", description := "Migration V010: alpha",
    up_sql := "ALTER TABLE x;", down_sql := "DROP INDEX a;",
    checksum := calculate_checksum "ALTER TABLE x;" }

/-- The migration parsed from `exListingB`. -/
def mB : Migration :=
  { version := "V010", name := "alpha", description := "Migration V010: alpha",
    up_sql := "ALTER TABLE x;", down_sql := "DROP INDEX b;",
    checksum := calculate_checksum "ALTER TABLE x;" }

/-- A migration with an empty down body. -/
def mNoDown : Migration :=
  { version := "V007", name := "no_down", description := "Migration V007: no_down",
    up_sql := "CREATE TABLE q(id INT);", down_sql := "", checksum := "c7" }

/-- A migration with an empty up body. -/
def mNoUp : Migration :=
  { version := "V008", name := "no_up", description := "Migration V008: no_up",
    up_sql := "", down_sql := "DROP TABLE q;", checksum := "c8" }

/-! # Theorems

First the general lemmas about the embedded primitives, then one theorem per
claim (with its witness or counterexample where required). -/

/-! ## The Python string order is a linear order -/

theorem char_eq_of_toNat_eq {a b : Char} (h : a.toNat = b.toNat) : a = b :=
  Char.eq_of_val_eq (UInt32.eq_of_toBitVec_eq (BitVec.eq_of_toNat_eq h))

theorem charListLe_refl : ∀ a : List Char, charListLe a a = true
  | [] => rfl
  | x :: a => by simp [charListLe, charListLe_refl a]

theorem charListLe_total : ∀ a b : List Char, charListLe a b = true ∨ charListLe b a = true
  | [], b => Or.inl (by cases b <;> rfl)
  | _ :: _, [] => Or.inr rfl
  | x :: a, y :: b => by
    by_cases hxy : x = y
    · subst hxy
      simpa [charListLe] using charListLe_total a b
    · have hne : x.toNat ≠ y.toNat := fun h => hxy (char_eq_of_toNat_eq h)
      have hyx : ¬y = x := fun h => hxy h.symm
      simp only [charListLe, if_neg hxy, if_neg hyx, decide_eq_true_eq]
      omega

theorem charListLe_trans :
    ∀ a b c : List Char, charListLe a b = true → charListLe b c = true → charListLe a c = true
  | [], b, c, _, _ => by cases c <;> rfl
  | _ :: _, [], _, h, _ => by simp [charListLe] at h
  | _ :: _, _ :: _, [], _, h => by simp [charListLe] at h
  | x :: a, y :: b, z :: c, h1, h2 => by
    by_cases hxy : x = y
    · subst hxy
      by_cases hxz : x = z
      · subst hxz
        simp only [charListLe, if_pos rfl] at h1 h2 ⊢
        exact charListLe_trans a b c h1 h2
      · simp only [charListLe, if_pos rfl] at h1
        simp only [charListLe, if_neg hxz] at h2 ⊢
        exact h2
    · by_cases hyz : y = z
      · subst hyz
        simp only [charListLe, if_neg hxy] at h1 ⊢
        exact h1
      · by_cases hxz : x = z
        · subst hxz
          simp only [charListLe, if_neg hxy, if_neg hyz, decide_eq_true_eq] at h1 h2
          exfalso
          omega
        · simp only [charListLe, if_neg hxy, if_neg hyz, decide_eq_true_eq] at h1 h2
          simp only [charListLe, if_neg hxz, decide_eq_true_eq]
          omega

theorem charListLe_antisymm :
    ∀ a b : List Char, charListLe a b = true → charListLe b a = true → a = b
  | [], [], _, _ => rfl
  | [], _ :: _, _, h => by simp [charListLe] at h
  | _ :: _, [], h, _ => by simp [charListLe] at h
  | x :: a, y :: b, h1, h2 => by
    by_cases hxy : x = y
    · subst hxy
      simp only [charListLe, if_pos rfl] at h1 h2
      rw [charListLe_antisymm a b h1 h2]
    · have hyx : ¬y = x := fun h => hxy h.symm
      simp only [charListLe, if_neg hxy, if_neg hyx, decide_eq_true_eq] at h1 h2
      exfalso
      omega

theorem charListLt_eq_not_le : ∀ a b : List Char, charListLt a b = !charListLe b a
  | [], [] => rfl
  | [], _ :: _ => rfl
  | _ :: _, [] => rfl
  | x :: a, y :: b => by
    by_cases hxy : x = y
    · subst hxy
      simp only [charListLt, charListLe, if_pos rfl]
      exact charListLt_eq_not_le a b
    · have hne : x.toNat ≠ y.toNat := fun h => hxy (char_eq_of_toNat_eq h)
      have hyx : ¬y = x := fun h => hxy h.symm
      simp only [charListLt, charListLe, if_neg hxy, if_neg hyx]
      rcases Nat.lt_trichotomy x.toNat y.toNat with h | h | h
      · simp [h, Nat.lt_asymm h]
      · exact absurd h hne
      · simp [h, Nat.lt_asymm h]

theorem pyStrLe_refl (s : String) : pyStrLe s s = true := charListLe_refl _

theorem pyStrLe_trans {s t u : String} (h1 : pyStrLe s t = true) (h2 : pyStrLe t u = true) :
    pyStrLe s u = true := charListLe_trans _ _ _ h1 h2

theorem pyStrLe_antisymm {s t : String} (h1 : pyStrLe s t = true) (h2 : pyStrLe t s = true) :
    s = t := by
  have h := charListLe_antisymm _ _ h1 h2
  cases s
  cases t
  exact congrArg String.mk h

theorem pyStrLt_eq_not_le (s t : String) : pyStrLt s t = !pyStrLe t s :=
  charListLt_eq_not_le _ _

theorem pyStrLt_irrefl (s : String) : pyStrLt s s = false := by
  rw [pyStrLt_eq_not_le, pyStrLe_refl]
  rfl

theorem pyStrLt_le_trans {s t u : String} (h1 : pyStrLt s t = true) (h2 : pyStrLe t u = true) :
    pyStrLt s u = true := by
  rw [pyStrLt_eq_not_le] at h1 ⊢
  cases hus : pyStrLe u s
  · rfl
  · rw [pyStrLe_trans h2 hus] at h1
    exact absurd h1 (by simp)

/-! ## Any two sorts of a permutation with distinct keys agree -/

theorem sorted_key_perm_eq {α : Type} (key : α → String) :
    ∀ l1 l2 : List α, l1.Perm l2 →
      l1.Pairwise (fun a b => pyStrLe (key a) (key b) = true) →
      l2.Pairwise (fun a b => pyStrLe (key a) (key b) = true) →
      (l1.map key).Nodup → l1 = l2
  | [], _, hp, _, _, _ => (hp.symm.eq_nil).symm
  | _ :: _, [], hp, _, _, _ => hp.eq_nil
  | a :: t, b :: u, hp, hs1, hs2, hnd => by
    have hba : b = a := by
      have hb1 : b ∈ a :: t := hp.symm.mem_iff.mp (List.mem_cons_self b u)
      rcases List.mem_cons.mp hb1 with h2 | h2
      · exact h2
      · exfalso
        have ha2 : a ∈ b :: u := hp.mem_iff.mp (List.mem_cons_self a t)
        have hab : key a = key b := by
          rcases List.mem_cons.mp ha2 with h | h
          · rw [h]
          · exact pyStrLe_antisymm ((List.pairwise_cons.mp hs1).1 b h2)
              ((List.pairwise_cons.mp hs2).1 a h)
        have hmem : key b ∈ t.map key := List.mem_map_of_mem key h2
        rw [← hab] at hmem
        exact (List.nodup_cons.mp hnd).1 hmem
    subst hba
    have ht : t.Perm u := hp.cons_inv
    rw [sorted_key_perm_eq key t u ht (List.pairwise_cons.mp hs1).2
      (List.pairwise_cons.mp hs2).2 (List.nodup_cons.mp hnd).2]

/-! ## Planner loop lemmas -/

theorem migrate_up_loop_fail_le_one (apply1 : Migration → Migration × Bool)
    (applied : List String) (target : Option String) :
    ∀ migs : List Migration, (migrate_up_loop apply1 applied target migs).2.1 ≤ 1
  | [] => by simp [migrate_up_loop]
  | m :: rest => by
    simp only [migrate_up_loop]
    split
    · exact migrate_up_loop_fail_le_one apply1 applied target rest
    · split
      · simp
      · split
        · simpa using migrate_up_loop_fail_le_one apply1 applied target rest
        · simp

theorem migrate_up_loop_attempted_succ (apply1 : Migration → Migration × Bool)
    (applied : List String) (target : Option String) :
    ∀ migs : List Migration,
      ∀ m ∈ (migrate_up_loop apply1 applied target migs).2.2.dropLast, (apply1 m).2 = true
  | [] => by simp [migrate_up_loop]
  | mig :: rest => by
    intro m hm
    simp only [migrate_up_loop] at hm
    split at hm
    · exact migrate_up_loop_attempted_succ apply1 applied target rest m hm
    · split at hm
      · simp at hm
      · split at hm
        · rename_i happly
          rcases hrest : (migrate_up_loop apply1 applied target rest).2.2 with _ | ⟨x, xs⟩
          · rw [hrest] at hm
            simp at hm
          · rw [hrest] at hm
            rw [List.dropLast_cons₂] at hm
            rcases List.mem_cons.mp hm with h | h
            · rw [h]
              exact happly
            · have := migrate_up_loop_attempted_succ apply1 applied target rest m
              rw [hrest] at this
              exact this h
        · simp at hm

theorem migrate_up_loop_fail_zero (apply1 : Migration → Migration × Bool)
    (h : ∀ m, (apply1 m).2 = true) (applied : List String) (target : Option String) :
    ∀ migs : List Migration, (migrate_up_loop apply1 applied target migs).2.1 = 0
  | [] => rfl
  | m :: rest => by
    simp only [migrate_up_loop]
    split
    · exact migrate_up_loop_fail_zero apply1 h applied target rest
    · split
      · rfl
      · rw [if_pos (h m)]
        exact migrate_up_loop_fail_zero apply1 h applied target rest

theorem migrate_up_loop_eq_takeWhile (apply1 : Migration → Migration × Bool)
    (applied : List String) (target : Option String) (h : ∀ m, (apply1 m).2 = true) :
    ∀ migs : List Migration,
      migrate_up_loop apply1 applied target migs =
        (((migs.filter fun m => !(applied.contains m.version)).takeWhile
            fun m => !(stop_before target m.version)).length, 0,
         (migs.filter fun m => !(applied.contains m.version)).takeWhile
            fun m => !(stop_before target m.version))
  | [] => rfl
  | m :: rest => by
    simp only [migrate_up_loop]
    rcases Bool.eq_false_or_eq_true (applied.contains m.version) with hc | hc
    · rw [if_pos hc, List.filter_cons_of_neg (by rw [hc]; decide)]
      exact migrate_up_loop_eq_takeWhile apply1 applied target h rest
    · rw [if_neg (by rw [hc]; decide), List.filter_cons_of_pos (by rw [hc]; decide)]
      rcases Bool.eq_false_or_eq_true (stop_before target m.version) with hs | hs
      · rw [if_pos hs, List.takeWhile_cons_of_neg (by rw [hs]; decide)]
        rfl
      · rw [if_neg (by rw [hs]; decide), if_pos (h m),
          List.takeWhile_cons_of_pos (by rw [hs]; decide),
          migrate_up_loop_eq_takeWhile apply1 applied target h rest]
        rfl

theorem migrate_down_loop_all (rb1 : Migration → Migration × Bool)
    (h : ∀ m, (rb1 m).2 = true) :
    ∀ migs : List Migration, migrate_down_loop rb1 migs = (migs.length, 0, migs)
  | [] => rfl
  | m :: rest => by
    simp [migrate_down_loop, h m, migrate_down_loop_all rb1 h rest]

/-! ## Hex digest shape -/

theorem hexChar_mem (n : Nat) : hexChar n ∈ hexChars := by
  unfold hexChar
  by_cases h : n < hexChars.length
  · rw [List.getD_eq_getElem hexChars '0' h]
    exact List.getElem_mem h
  · rw [List.getD_eq_default hexChars '0' (Nat.le_of_not_lt h)]
    decide

theorem word8Hex_subset (x : Nat) : ∀ c ∈ word8Hex x, c ∈ hexChars := by
  intro c hc
  simp only [word8Hex, List.mem_cons, List.not_mem_nil, or_false] at hc
  rcases hc with h | h | h | h | h | h | h | h <;> (subst h; exact hexChar_mem _)

theorem shaHex_length (st : ShaState) : (shaHex st).length = 64 := rfl

theorem shaHex_hex (st : ShaState) : ∀ c ∈ (shaHex st).data, c ∈ hexChars := by
  intro c hc
  simp only [shaHex, List.mem_append] at hc
  rcases hc with ((((((h | h) | h) | h) | h) | h) | h) | h <;> exact word8Hex_subset _ c h

theorem calculate_checksum_length (s : String) : (calculate_checksum s).length = 64 :=
  shaHex_length _

theorem calculate_checksum_hex (s : String) : ∀ c ∈ (calculate_checksum s).data, c ∈ hexChars :=
  shaHex_hex _

/-! ## Registry lemmas -/

theorem parse_migration_checksum {f c : String} {m : Migration}
    (h : parse_migration f c = some m) : m.checksum = calculate_checksum m.up_sql := by
  unfold parse_migration at h
  split at h
  · exact absurd h (by simp)
  · split at h
    · rw [Option.some_inj] at h
      subst h
      rfl
    · exact absurd h (by simp)

theorem load_migrations_checksum (listing : List (String × String)) :
    ∀ m ∈ load_migrations listing, m.checksum = calculate_checksum m.up_sql := by
  intro m hm
  unfold load_migrations at hm
  rw [List.mem_insertionSort] at hm
  rcases List.mem_filterMap.mp hm with ⟨fc, _, hparse⟩
  exact parse_migration_checksum hparse

theorem load_migrations_sorted (listing : List (String × String)) :
    (load_migrations listing).Pairwise verLe := by
  haveI : IsTotal Migration verLe := ⟨fun _ _ => charListLe_total _ _⟩
  haveI : IsTrans Migration verLe := ⟨fun _ _ _ h1 h2 => charListLe_trans _ _ _ h1 h2⟩
  exact List.sorted_insertionSort verLe _

theorem load_migrations_perm_eq (l1 l2 : List (String × String)) (hperm : l1.Perm l2)
    (hnodup : (l1.map Prod.fst).Nodup) : load_migrations l1 = load_migrations l2 := by
  have hsortEq : List.insertionSort nameLe l1 = List.insertionSort nameLe l2 := by
    haveI : IsTotal (String × String) nameLe := ⟨fun _ _ => charListLe_total _ _⟩
    haveI : IsTrans (String × String) nameLe := ⟨fun _ _ _ h1 h2 => charListLe_trans _ _ _ h1 h2⟩
    apply sorted_key_perm_eq Prod.fst
    · exact ((List.perm_insertionSort nameLe l1).trans hperm).trans
        (List.perm_insertionSort nameLe l2).symm
    · exact List.sorted_insertionSort nameLe l1
    · exact List.sorted_insertionSort nameLe l2
    · exact ((List.perm_insertionSort nameLe l1).map Prod.fst).nodup_iff.mpr hnodup
  unfold load_migrations
  rw [hsortEq]

/-! ## Membership in a sorted takeWhile -/

theorem mem_takeWhile_of_sorted {p : Migration → Bool}
    (hmono : ∀ x y : Migration, verLe x y → p y = true → p x = true) :
    ∀ L : List Migration, L.Pairwise verLe → ∀ m, m ∈ L → p m = true → m ∈ L.takeWhile p
  | [], _, m, hm, _ => absurd hm (List.not_mem_nil m)
  | x :: L, hpw, m, hm, hpm => by
    rcases List.mem_cons.mp hm with h | h
    · subst h
      rw [List.takeWhile_cons_of_pos hpm]
      exact List.mem_cons_self m _
    · have hx : p x = true := hmono x m ((List.pairwise_cons.mp hpw).1 m h) hpm
      rw [List.takeWhile_cons_of_pos hx]
      exact List.mem_cons_of_mem x
        (mem_takeWhile_of_sorted hmono L (List.pairwise_cons.mp hpw).2 m h hpm)

/-! ## Claim theorems -/

/-- C1 counterexample: on a migration with empty `down_sql`,
`rollback_migration` with `dry_run = False` returns `True` and sets the
status to `ROLLED_BACK`, instead of failing with `NoRollbackDefined` and
leaving the status unchanged as the claim states. -/
theorem spec_c1_cex :
    mNoDown.down_sql = "" ∧ (rollback_migration mNoDown false).2 = true ∧
      (rollback_migration mNoDown false).1.status = MigrationStatus.rolled_back :=
  ⟨rfl, rfl, rfl⟩

/-- C1 (amended): for every migration whose `down_sql` is the empty string,
`rollback_migration` with `dry_run = False` does not fail: the code has no
`NoRollbackDefined` guard, performs no database call (the rollback execution
is a TODO stub), returns `True`, and sets the status to `ROLLED_BACK`. -/
theorem spec_c1 (m : Migration) (_hdown : m.down_sql = "") :
    rollback_migration m false = ({ m with status := .rolled_back }, true) := rfl

/-- C1 witness at the concrete migration `mNoDown`. -/
theorem spec_c1_witness :
    mNoDown.down_sql = "" ∧
      rollback_migration mNoDown false = ({ mNoDown with status := .rolled_back }, true) :=
  ⟨rfl, spec_c1 mNoDown rfl⟩

/-- C2: the `migrate_up` loop stops immediately at the first failed apply:
the failed count is at most `1`, every attempted migration except possibly
the last one succeeded (so nothing is attempted after the first failure),
and over three pending migrations where the second fails it returns
`(successful, failed) = (1, 1)` having attempted only the first two, so the
third is never attempted.  The executor outcome is the parameter `apply1`,
since the SQL execution inside `apply_migration` is a TODO placeholder. -/
theorem spec_c2 (apply1 : Migration → Migration × Bool) (applied : List String)
    (target : Option String) (migs : List Migration) (m1 m2 m3 : Migration)
    (h1 : (apply1 m1).2 = true) (h2 : (apply1 m2).2 = false) (h3 : m3 ∉ [m1, m2]) :
    (migrate_up_loop apply1 applied target migs).2.1 ≤ 1
    ∧ (∀ m ∈ (migrate_up_loop apply1 applied target migs).2.2.dropLast, (apply1 m).2 = true)
    ∧ migrate_up_loop apply1 [] none [m1, m2, m3] = (1, 1, [m1, m2])
    ∧ m3 ∉ (migrate_up_loop apply1 [] none [m1, m2, m3]).2.2 := by
  have hrun : migrate_up_loop apply1 [] none [m1, m2, m3] = (1, 1, [m1, m2]) := by
    simp [migrate_up_loop, stop_before, h1, h2]
  refine ⟨migrate_up_loop_fail_le_one apply1 applied target migs,
    migrate_up_loop_attempted_succ apply1 applied target migs, hrun, ?_⟩
  rw [hrun]
  exact h3

/-- C2 witness: a concrete executor failing exactly on version `V002`, run
over the three pending migrations `V001, V002, V003`. -/
theorem spec_c2_witness :
    ((fun m => apply_migration_exec (fun x => x.version != "V002") 0 m false) mV1).2 = true
    ∧ ((fun m => apply_migration_exec (fun x => x.version != "V002") 0 m false) mV2).2 = false
    ∧ mV3 ∉ [mV1, mV2]
    ∧ migrate_up_loop (fun m => apply_migration_exec (fun x => x.version != "V002") 0 m false)
        [] none [mV1, mV2, mV3] = (1, 1, [mV1, mV2]) := by
  refine ⟨by decide, by decide, by decide, ?_⟩
  exact (spec_c2 (fun m => apply_migration_exec (fun x => x.version != "V002") 0 m false)
    [] none [] mV1 mV2 mV3 (by decide) (by decide) (by decide)).2.2.1

/-- C3: with `dry_run = False` the try-body of `apply_migration` only assigns
fields and prints, so it cannot raise: the call always returns `True`, always
sets `status = COMPLETED` and `applied_at`, and consequently every call of
`migrate_up` reports a failed count of exactly `0`. -/
theorem spec_c3 :
    (∀ (now : Nat) (m : Migration),
        apply_migration now m false
          = ({ m with status := .completed, applied_at := some now }, true))
    ∧ (∀ (now : Nat) (m : Migration) (d : Bool), (apply_migration now m d).2 = true)
    ∧ (∀ (now : Nat) (listing : List (String × String)) (target : Option String) (d : Bool),
        (migrate_up now listing target d).2.1 = 0) := by
  refine ⟨fun now m => rfl, fun now m d => by cases d <;> rfl,
    fun now listing target d => ?_⟩
  exact migrate_up_loop_fail_zero _ (fun m => by cases d <;> rfl) _ _ _

/-- C4 counterexample: `apply_migration` with `dry_run = True` on a migration
with an empty `up_sql` reports success, not the failure the claim requires of
dry-run validation. -/
theorem spec_c4_cex : mNoUp.up_sql = "" ∧ (apply_migration 0 mNoUp true).2 = true :=
  ⟨rfl, rfl⟩

/-- C4 (amended): dry-run `apply_migration` performs no validation at all: it
reports success for every migration, empty `up_sql` included, and touches
neither the migration nor the database. -/
theorem spec_c4 : ∀ (now : Nat) (m : Migration), apply_migration now m true = (m, true) :=
  fun _ _ => rfl

/-- C5: the placeholder `get_applied_migrations` always returns the empty
mapping; consequently `migrate_down` always returns `(0, 0)` rolling nothing
back, and `get_migration_status` always reports `applied_count = 0`,
`current_version = None`, and every loaded migration as pending. -/
theorem spec_c5 :
    get_applied_migrations = []
    ∧ (∀ (steps : Nat) (d : Bool), migrate_down steps d = (0, 0, []))
    ∧ (∀ listing : List (String × String),
        (get_migration_status listing).applied_count = 0
        ∧ (get_migration_status listing).current_version = none
        ∧ (get_migration_status listing).pending_count = (load_migrations listing).length
        ∧ (get_migration_status listing).pending_migrations
            = (load_migrations listing).map Migration.version) := by
  refine ⟨rfl, fun steps d => ?_, fun listing => ?_⟩
  · simp [migrate_down, rollback_plan, get_applied_migrations, migrate_down_loop]
  · refine ⟨rfl, rfl, ?_, ?_⟩ <;>
      simp [get_migration_status, get_applied_migrations]

/-- C6: `calculate_checksum` is a deterministic total function of the text,
and every migration produced by `load_migrations` stores exactly the SHA-256
hex digest (64 characters, all lowercase hex digits) of its `up_sql`; two
loaded migrations sharing the same `up_sql` share the checksum, so changing
only the down body never changes it. -/
theorem spec_c6 (listing listing2 : List (String × String)) (m m2 : Migration)
    (hm : m ∈ load_migrations listing) (hm2 : m2 ∈ load_migrations listing2)
    (hup : m2.up_sql = m.up_sql) :
    (∀ c : String, calculate_checksum c = calculate_checksum c)
    ∧ m.checksum = calculate_checksum m.up_sql
    ∧ m.checksum.length = 64
    ∧ (∀ c ∈ m.checksum.data, c ∈ hexChars)
    ∧ m2.checksum = m.checksum := by
  have h1 := load_migrations_checksum listing m hm
  have h2 := load_migrations_checksum listing2 m2 hm2
  refine ⟨fun c => rfl, h1, ?_, ?_, ?_⟩
  · rw [h1]
    exact calculate_checksum_length _
  · rw [h1]
    exact calculate_checksum_hex _
  · rw [h2, hup]
    exact h1.symm

/-- C6 witness: the two single-file listings `exListingA`/`exListingB` differ
only in the down body; their loaded migrations `mA`/`mB` share the
checksum, which is 64 characters long. -/
theorem spec_c6_witness :
    (mA ∈ load_migrations exListingA ∧ mB ∈ load_migrations exListingB
      ∧ mB.up_sql = mA.up_sql)
    ∧ mA.checksum.length = 64 ∧ mB.checksum = mA.checksum := by
  refine ⟨⟨by decide, by decide, rfl⟩, ?_, ?_⟩
  · exact (spec_c6 exListingA exListingB mA mB (by decide) (by decide) rfl).2.2.1
  · exact (spec_c6 exListingA exListingB mA mB (by decide) (by decide) rfl).2.2.2.2

/-- C7: `load_migrations` returns a sequence sorted ascending by version in
the string-lexicographic order; for listings with distinct filenames the
result does not depend on the listing order; and the concrete source listing
versions `V003, V001, V002` loads as `V001, V002, V003`. -/
theorem spec_c7 (listing listing2 : List (String × String)) (hperm : listing.Perm listing2)
    (hnodup : (listing.map Prod.fst).Nodup) :
    (load_migrations listing).Pairwise verLe
    ∧ load_migrations listing = load_migrations listing2
    ∧ (load_migrations exListing).map Migration.version = ["V001", "V002", "V003"] :=
  ⟨load_migrations_sorted listing, load_migrations_perm_eq listing listing2 hperm hnodup,
    by decide⟩

/-- C7 witness: `exListing` (listed `V003, V001, V002`) against its sorted
permutation. -/
theorem spec_c7_witness :
    (exListing.Perm exListingSorted ∧ (exListing.map Prod.fst).Nodup)
    ∧ load_migrations exListing = load_migrations exListingSorted :=
  ⟨⟨by decide, by decide⟩,
    (spec_c7 exListing exListingSorted (by decide) (by decide)).2.1⟩

/-- C8 counterexample: with the empty-string target, `migrate_up` applies the
migration `V001` even though its version is strictly greater than the target
(`"" < "V001"`), because the Python truthiness test `if target_version and
...` treats the empty string like `None`; the claim as stated requires the
run to stop before it. -/
theorem spec_c8_cex :
    pyStrLt "" "V001" = true
    ∧ (migrate_up 0 exListing1 (some "") false).2.2.map Migration.version = ["V001"] :=
  ⟨rfl, by decide⟩

/-- C8 (amended): for every non-empty target version (an empty-string target
is truthiness-falsy and disables the stop check), the `migrate_up` loop skips
exactly the migrations whose version is in the applied mapping, attempts the
remaining ones in the given ascending order up to the first version strictly
greater than the target, and a pending migration whose version equals the
target is itself attempted. -/
theorem spec_c8 (apply1 : Migration → Migration × Bool) (applied : List String)
    (t : String) (migs : List Migration) (m : Migration)
    (happly : ∀ x, (apply1 x).2 = true) (ht : t ≠ "")
    (hm : m ∈ migs) (hnap : applied.contains m.version = false) (hver : m.version = t)
    (hsorted : migs.Pairwise verLe) :
    (migrate_up_loop apply1 applied (some t) migs).2.2
      = (migs.filter fun x => !(applied.contains x.version)).takeWhile
          (fun x => !(stop_before (some t) x.version))
    ∧ (∀ x ∈ (migrate_up_loop apply1 applied (some t) migs).2.2,
        applied.contains x.version = false)
    ∧ (∀ x ∈ (migrate_up_loop apply1 applied (some t) migs).2.2,
        pyStrLt t x.version = false)
    ∧ (migrate_up_loop apply1 applied (some t) migs).2.2.Pairwise verLe
    ∧ m ∈ (migrate_up_loop apply1 applied (some t) migs).2.2 := by
  have htb : (t == "") = false := by
    rcases Bool.eq_false_or_eq_true (t == "") with h | h
    · exact absurd (by simpa using h) ht
    · exact h
  have hstop : ∀ v : String, stop_before (some t) v = pyStrLt t v := by
    intro v
    simp [stop_before, htb]
  have hatt : (migrate_up_loop apply1 applied (some t) migs).2.2
      = (migs.filter fun x => !(applied.contains x.version)).takeWhile
          (fun x => !(stop_before (some t) x.version)) := by
    rw [migrate_up_loop_eq_takeWhile apply1 applied (some t) happly migs]
  have hsub : ((migs.filter fun x => !(applied.contains x.version)).takeWhile
      (fun x => !(stop_before (some t) x.version))).Sublist migs :=
    (List.takeWhile_sublist _).trans (List.filter_sublist _)
  refine ⟨hatt, ?_, ?_, ?_, ?_⟩
  · intro x hx
    rw [hatt] at hx
    have hxf := (List.takeWhile_sublist
      (fun x : Migration => !(stop_before (some t) x.version))).subset hx
    have := (List.mem_filter.mp hxf).2
    rcases Bool.eq_false_or_eq_true (applied.contains x.version) with h | h
    · rw [h] at this
      exact absurd this (by decide)
    · exact h
  · intro x hx
    rw [hatt] at hx
    have := List.mem_takeWhile_imp hx
    rw [hstop] at this
    rcases Bool.eq_false_or_eq_true (pyStrLt t x.version) with h | h
    · rw [h] at this
      exact absurd this (by decide)
    · exact h
  · rw [hatt]
    exact hsorted.sublist hsub
  · rw [hatt]
    refine mem_takeWhile_of_sorted ?_
      (migs.filter fun x => !(applied.contains x.version))
      (hsorted.sublist (List.filter_sublist _)) m
      (List.mem_filter.mpr ⟨hm, by rw [hnap]; decide⟩) ?_
    · intro x y hxy hy
      rw [hstop] at hy ⊢
      rcases Bool.eq_false_or_eq_true (pyStrLt t x.version) with h | h
      · have := pyStrLt_le_trans h hxy
        rw [this] at hy
        exact absurd hy (by decide)
      · rw [h]
        decide
    · rw [hstop, hver, pyStrLt_irrefl]
      decide

/-- C8 witness: three sorted pending migrations, one already-applied version,
target `V002`: the migration with the target version is attempted. -/
theorem spec_c8_witness :
    ("V002" ≠ "" ∧ mV2 ∈ [mV1, mV2, mV3]
      ∧ (["V000"] : List String).contains mV2.version = false ∧ mV2.version = "V002"
      ∧ ([mV1, mV2, mV3] : List Migration).Pairwise verLe)
    ∧ mV2 ∈ (migrate_up_loop (fun m => apply_migration 0 m false) ["V000"]
        (some "V002") [mV1, mV2, mV3]).2.2 := by
  refine ⟨⟨by decide, by decide, by decide, rfl, by decide⟩, ?_⟩
  exact (spec_c8 (fun m => apply_migration 0 m false) ["V000"] "V002" [mV1, mV2, mV3] mV2
    (fun x => rfl) (by decide) (by decide) (by decide) rfl (by decide)).2.2.2.2

/-- C9: `migrate_down` over a ledger rolls back exactly the first `steps`
entries of the applied mapping sorted by version descending, in that
descending order (the rollback step of the source always reports success);
after two applied migrations, `steps = 1` rolls back only the highest
version.  The ledger is a parameter since `get_applied_migrations` is a
placeholder returning the empty mapping. -/
theorem spec_c9 :
    (∀ (applied : List (String × Migration)) (steps : Nat) (d : Bool),
        migrate_down_ledger applied steps d
          = ((rollback_plan applied steps).length, 0, rollback_plan applied steps))
    ∧ (∀ (applied : List (String × Migration)) (steps : Nat),
        (rollback_plan applied steps).Pairwise verGe)
    ∧ migrate_down_ledger [("V001", mV1), ("V002", mV2)] 1 false = (1, 0, [mV2]) := by
  haveI : IsTotal Migration verGe := ⟨fun _ _ => charListLe_total _ _⟩
  haveI : IsTrans Migration verGe := ⟨fun _ _ _ h1 h2 => charListLe_trans _ _ _ h2 h1⟩
  refine ⟨fun applied steps d => ?_, fun applied steps => ?_, by decide⟩
  · exact migrate_down_loop_all _ (fun m => by cases d <;> rfl) _
  · exact (List.sorted_insertionSort verGe (applied.map Prod.snd)).sublist
      (List.take_sublist steps _)

/-- C10: dry-run `apply_migration` and `rollback_migration` leave the
migration (its `status` and `applied_at` fields included) unchanged and
report success, so a dry run never produces an execution failure; the
applied ledger placeholder is untouched by construction. -/
theorem spec_c10 : ∀ (now : Nat) (m : Migration),
    apply_migration now m true = (m, true) ∧ rollback_migration m true = (m, true) :=
  fun _ _ => ⟨rfl, rfl⟩

end VertaAI
